import Mathlib

/-!
Shallow embedding of `tracee-ebpf/tracee/events_processor.go` (user-space
event-processing core of the tracee tracer) and proofs about it.

Go maps are embedded as association lists, mutation as explicit state
passing, side effects (file copies, directory creation, kernel-map
operations) as an explicit effect trace, and fallible filesystem /
kernel-map collaborators as environment functions returning
`Option GoError` (`none` = Go's `nil` error).
-/

namespace Tracee

/-- Go `error` values, rendered by their message. `none` below models `nil`. -/
abbrev GoError := String

/-! ## Association-list maps (embedding of Go maps) -/

/-- Go map read `m[k]` (with the `, ok` form: `none` is `ok = false`). -/
def mapGet {K V : Type} [DecidableEq K] : List (K × V) → K → Option V
  | [], _ => none
  | (k', v) :: rest, k => if k' = k then some v else mapGet rest k

/-- Go map write `m[k] = v`: replaces the binding for `k`, or appends one. -/
def mapSet {K V : Type} [DecidableEq K] : List (K × V) → K → V → List (K × V)
  | [], k, v => [(k, v)]
  | (k', v') :: rest, k, v =>
      if k' = k then (k, v) :: rest else (k', v') :: mapSet rest k v

/-- Number of bindings for key `k` held in the list. -/
def keyCount {K V : Type} [DecidableEq K] (m : List (K × V)) (k : K) : Nat :=
  (m.filter (fun p => p.1 = k)).length


/-! ## Dynamically-typed argument values

Go's `map[string]interface{}` argument map holds dynamically-typed values;
the dispatcher recovers concrete types via type assertions.  Modelled as a
tagged union (spec §9) with the concrete types this file asserts. -/

inductive GoValue where
  /-- a Go `string` value -/
  | str (s : String)
  /-- a Go `uint32` value -/
  | u32 (n : Nat)
  /-- a Go `uint64` value -/
  | u64 (n : Nat)
  /-- a Go `int64` value -/
  | i64 (n : Int)
  /-- any other dynamic value, carrying its `fmt.Sprint` rendering -/
  | other (rendering : String)
deriving DecidableEq

/-- Rendering `fmt.Sprint` of a dynamic argument value (canonical textual form). -/
def goSprint : GoValue → String
  | .str s => s
  | .u32 n => toString n
  | .u64 n => toString n
  | .i64 n => toString n
  | .other r => r

/-- The event argument map `args map[string]interface{}`. -/
abbrev Args := List (String × GoValue)

/-- Embedding of `external.ArgMeta`: name and textual type of one event argument
(the Go field `Type` is spelled `Typ`, `Type` being reserved in Lean). -/
structure ArgMeta where
  Name : String
  Typ : String
deriving DecidableEq

/-! ## Configuration (read-only, externally populated)

The config structs are not part of `events_processor.go`; the fields below
are modelled from the spec (§3 FilterSpec, §6 configuration surface) with
the field names this file reads. -/

/-- Sentinel marking the strict-greater bound as unset (Go `math.MinInt64`). -/
def GreaterNotSetInt : Int := -(2 ^ 63)

/-- Sentinel marking the strict-less bound as unset (Go `math.MaxInt64`). -/
def LessNotSetInt : Int := 2 ^ 63 - 1

/-- Return-value filter for one event type: accepted values, rejected
values, and optional strict numeric bounds carrying unset sentinels. -/
structure RetFilterEntry where
  Equal : List Int
  NotEqual : List Int
  Greater : Int
  Less : Int
deriving DecidableEq

structure RetFilterCfg where
  Enabled : Bool
  Filters : List (Nat × RetFilterEntry)
deriving DecidableEq

/-- Argument filter for one argument name: accepted and rejected string
patterns; a pattern ending in `'*'` matches by prefix. -/
structure ArgFilterEntry where
  Equal : List String
  NotEqual : List String
deriving DecidableEq

structure ArgFilterCfg where
  Enabled : Bool
  Filters : List (Nat × List (String × ArgFilterEntry))
deriving DecidableEq

structure FilterConfig where
  RetFilter : RetFilterCfg
  ArgFilter : ArgFilterCfg
deriving DecidableEq

structure CaptureConfig where
  FileWrite : Bool
  Exec : Bool
  Profile : Bool
  OutputPath : String
deriving DecidableEq

structure OutputConfig where
  ExecHash : Bool
deriving DecidableEq

structure Config where
  Filter : FilterConfig
  Capture : CaptureConfig
  Output : OutputConfig
deriving DecidableEq

/-- Event context delivered with each kernel event.  Modelled from the
spec (§3 EventContext): the type itself is declared outside this source
file; these are the fields `events_processor.go` reads or mutates. -/
structure EventContext where
  EventID : Nat
  Pid : Nat
  HostPid : Nat
  MntID : Nat
  Ts : Nat
  Retval : Int
  Argnum : Nat
deriving DecidableEq

/-- Modelled from the spec: enumerated event-type identifier for vfs_write.
The numeric values of the four identifiers are immaterial; only their
distinctness is used. -/
def VfsWriteEventID : Nat := 1000

/-- Modelled from the spec: event-type identifier for vfs_writev. -/
def VfsWritevEventID : Nat := 1001

/-- Modelled from the spec: event-type identifier for sched_process_exec. -/
def SchedProcessExecEventID : Nat := 1002

/-- Modelled from the spec: event-type identifier for socket creation. -/
def SocketEventID : Nat := 41

/-! ## Filter Evaluator (`shouldProcessEvent`)

Argument-filter evaluation can abort (Go panic on indexing an empty
pattern), so its embedding returns `Option Bool`: `none` models the
out-of-range panic, `some b` a normal pass/drop decision. -/

/-- The `for _, f := range list { if retVal == f { match = true; break } }`
loop of the return-value filter (also reused for the `NotEqual` loop,
whose body returns at the first match). -/
def intListMatch (retVal : Int) : List Int → Bool
  | [] => false
  | f :: fs => if retVal = f then true else intListMatch retVal fs

/-- Return-value filter body of `shouldProcessEvent` for one entry. -/
def retFilterPass (flt : RetFilterEntry) (retVal : Int) : Bool :=
  if intListMatch retVal flt.Equal = false ∧ flt.Equal ≠ [] then false
  else if intListMatch retVal flt.NotEqual then false
  else if flt.Greater ≠ GreaterNotSetInt ∧ retVal ≤ flt.Greater then false
  else if flt.Less ≠ LessNotSetInt ∧ retVal ≥ flt.Less then false
  else true

/-- One argument-filter pattern test, embedding Go's short-circuiting
`argValStr == f || (f[len(f)-1] == '*' && strings.HasPrefix(argValStr, f[0:len(f)-1]))`.
When the equality is false and `f` is empty, `f[len(f)-1]` panics with an
out-of-range access: modelled as `none`. -/
def patMatch (argValStr f : String) : Option Bool :=
  if argValStr = f then some true
  else
    match f.data.getLast? with
    | none => none
    | some c => some (c = '*' && f.data.dropLast.isPrefixOf argValStr.data)

/-- The accept-list loop: breaks at the first matching pattern, otherwise
examines every pattern (each examination may panic). -/
def equalLoop (argValStr : String) : List String → Option Bool
  | [] => some false
  | f :: fs =>
      match patMatch argValStr f with
      | none => none
      | some true => some true
      | some false => equalLoop argValStr fs

/-- The reject-list loop: `some true` means a reject pattern matched
(the event is dropped), `none` a panic while matching. -/
def notEqualLoop (argValStr : String) : List String → Option Bool
  | [] => some false
  | f :: fs =>
      match patMatch argValStr f with
      | none => none
      | some true => some true
      | some false => notEqualLoop argValStr fs

/-- Argument-filter evaluation for one configured argument name;
`some true` = keep going, `some false` = drop the event, `none` = panic.
A name missing from `args` is skipped (`continue`). -/
def argFilterOne (args : Args) (argName : String) (flt : ArgFilterEntry) :
    Option Bool :=
  match mapGet args argName with
  | none => some true
  | some argVal =>
      let argValStr := goSprint argVal
      match equalLoop argValStr flt.Equal with
      | none => none
      | some m =>
          if m = false ∧ flt.Equal ≠ [] then some false
          else
            match notEqualLoop argValStr flt.NotEqual with
            | none => none
            | some true => some false
            | some false => some true

/-- The `for argName, filter := range Filters[ctx.EventID]` loop.  Go map
iteration order is unspecified; the embedding fixes the association-list
order (the pass/drop value is order-independent). -/
def argFiltersLoop (args : Args) : List (String × ArgFilterEntry) → Option Bool
  | [] => some true
  | (argName, flt) :: rest =>
      match argFilterOne args argName flt with
      | none => none
      | some false => some false
      | some true => argFiltersLoop args rest

/-- Predicate `shouldProcessEvent`: decides whether or not to drop an event before
further processing it.  `some b` is the Go boolean result, `none` the
panic on an empty argument-filter pattern. -/
def shouldProcessEvent (cfg : Config) (ctx : EventContext) (args : Args) :
    Option Bool :=
  let retOk : Bool :=
    if cfg.Filter.RetFilter.Enabled then
      match mapGet cfg.Filter.RetFilter.Filters ctx.EventID with
      | some flt => retFilterPass flt ctx.Retval
      | none => true
    else true
  if retOk then
    if cfg.Filter.ArgFilter.Enabled then
      argFiltersLoop args ((mapGet cfg.Filter.ArgFilter.Filters ctx.EventID).getD [])
    else some true
  else some false

/-! ## Mutable tracer state

The maps `processEvent` mutates, plus the package-level `sync.Once` guard
`removeSocketTailOnce`, folded into one explicit state record. -/

/-- Hash-cache entry: `(last change time, hash string)`. -/
structure FileExecInfo where
  LastCtime : Int
  Hash : String
deriving DecidableEq

/-- Profile record: execution count and first-seen timestamp. -/
structure ProfilerInfo where
  Times : Nat
  FirstExecutionTs : Nat
deriving DecidableEq

structure TraceeState where
  /-- Map `t.writtenFiles`: Written-File dedup index. -/
  writtenFiles : List (String × String)
  /-- Index `t.pidsInMntns`: Mount-Namespace PID buckets. -/
  pidsInMntns : List (Nat × List Nat)
  /-- Map `t.capturedFiles`: Captured-File records (key ↦ last change time). -/
  capturedFiles : List (String × Int)
  /-- Cache `t.fileHashes`: Hash-Cache (LRU collaborator, exposed only as
  get/add; embedded as a plain map, eviction out of scope per spec §1). -/
  fileHashes : List (String × FileExecInfo)
  /-- Map `t.profiledFiles`: Profile records. -/
  profiledFiles : List (String × ProfilerInfo)
  /-- the `removeSocketTailOnce` `sync.Once` guard: `true` once fired. -/
  socketPruned : Bool
deriving DecidableEq

/-- Modelled from the spec: capacity bound of a Mount-Namespace PID bucket
(§3: "a bounded collection of process IDs"; the concrete container is an
external collaborator). -/
def bucketCapacity : Nat := 20

/-- Lookup `t.pidsInMntns.GetBucket`: the PID bucket of a namespace. -/
def GetBucket (m : List (Nat × List Nat)) (ns : Nat) : List Nat :=
  (mapGet m ns).getD []

/-- Modelled from the spec: conditional bucket insertion, "subject to the
bucket's eviction/capacity policy" (§3).  A PID already observed is kept
once; at capacity the insertion is refused (the exact eviction policy is
unspecified by the spec, §9). -/
def AddBucketItem (m : List (Nat × List Nat)) (ns pid : Nat) :
    List (Nat × List Nat) :=
  let b := GetBucket m ns
  if pid ∈ b then m
  else if b.length < bucketCapacity then mapSet m ns (b ++ [pid])
  else m

/-- Modelled from the spec: forced bucket insertion, "always inserted,
reserved for the namespace-owning init process" (§3). -/
def ForceAddBucketItem (m : List (Nat × List Nat)) (ns pid : Nat) :
    List (Nat × List Nat) :=
  let b := GetBucket m ns
  if pid ∈ b then m else mapSet m ns (b ++ [pid])

/-- The PID-index update at the head of the exec case: forced insertion for
the namespace init (`ctx.Pid == 1`), conditional insertion otherwise. -/
def pidsAfterInsert (m : List (Nat × List Nat)) (ctx : EventContext) :
    List (Nat × List Nat) :=
  if ctx.Pid = 1 then ForceAddBucketItem m ctx.MntID ctx.HostPid
  else AddBucketItem m ctx.MntID ctx.HostPid

/-! ## Environment and effect trace

Filesystem and kernel-map collaborators are embedded as environment
functions; every side-effecting call is also recorded in an effect trace
so that "performed exactly once" claims are statable. -/

/-- Outcomes of the external collaborators (`none` = success / Go `nil`). -/
structure Env where
  /-- result of `os.MkdirAll dir 0755` -/
  mkdirErr : String → Option GoError
  /-- result of `CopyFileByPath src dst` -/
  copyErr : String → String → Option GoError
  /-- result of `getFileHash path` (total: returns a string) -/
  hashOf : String → String
  /-- result of `t.bpfModule.GetMap name` -/
  bpfGetMapErr : String → Option GoError
  /-- result of `bpfMap.GetValue key` on the named map -/
  bpfGetValueErr : String → Nat → Option GoError
  /-- result of `bpfMap.DeleteKey key` on the named map -/
  bpfDeleteKeyErr : String → Nat → Option GoError

/-- One recorded side-effecting call. -/
inductive Effect where
  | mkdir (dir : String)
  | copyFile (src dst : String)
  | bpfGetMap (name : String)
  | bpfGetValue (name : String) (key : Nat)
  | bpfDeleteKey (name : String) (key : Nat)
  | errorHandled (e : GoError)
deriving DecidableEq

/-- Result of one `processEvent` call: the returned error, the new tracer
state, and the in-place mutations of `ctx` / `args` / `argMetas`, plus the
trace of side-effecting calls made. -/
structure ProcResult where
  err : Option GoError
  st : TraceeState
  ctx : EventContext
  args : Args
  argMetas : List ArgMeta
  effects : List Effect
deriving DecidableEq

/-- Number of file-copy attempts in an effect trace. -/
def copyCount (effs : List Effect) : Nat :=
  (effs.filter (fun e => match e with | .copyFile _ _ => true | _ => false)).length

/-! ## Path helpers (library collaborators) -/

/-- Modelled collaborator: `filepath.Join` for the clean absolute
components this file joins (no path cleaning). -/
def filepathJoin (a b : String) : String := a ++ "/" ++ b

/-- Chars after the last `'/'` (`acc` holds the current component reversed). -/
def lastComponent : List Char → List Char → List Char
  | [], acc => acc.reverse
  | c :: rest, acc =>
      if c = '/' then lastComponent rest [] else lastComponent rest (c :: acc)

/-- Modelled collaborator: `filepath.Base` on the cleaned absolute paths
this file passes it (the component after the last separator). -/
def filepathBase (p : String) : String := ⟨lastComponent p.data []⟩

/-! ## Event Dispatcher (`processEvent`) and helpers -/

/-- Method `t.updateProfile`: create or bump an in-memory profile record. -/
def updateProfile (m : List (String × ProfilerInfo))
    (sourceFilePath : String) (executionTs : Nat) :
    List (String × ProfilerInfo) :=
  match mapGet m sourceFilePath with
  | none => mapSet m sourceFilePath ⟨1, executionTs⟩
  | some pf => mapSet m sourceFilePath ⟨pf.Times + 1, pf.FirstExecutionTs⟩

/-- Method `t.removeSocketTail`: look the socket tail entry up in the
`sys_exit_tails` dispatch table and delete it if present; lookup/delete
errors are routed to the generic error handler.  Returns the effect trace
of the kernel-map calls made. -/
def removeSocketTail (env : Env) : List Effect :=
  match env.bpfGetMapErr "sys_exit_tails" with
  | some _ => [.bpfGetMap "sys_exit_tails"]
  | none =>
      match env.bpfGetValueErr "sys_exit_tails" SocketEventID with
      | some _ => [.bpfGetMap "sys_exit_tails",
                   .bpfGetValue "sys_exit_tails" SocketEventID]
      | none =>
          match env.bpfDeleteKeyErr "sys_exit_tails" SocketEventID with
          | some e => [.bpfGetMap "sys_exit_tails",
                       .bpfGetValue "sys_exit_tails" SocketEventID,
                       .bpfDeleteKey "sys_exit_tails" SocketEventID,
                       .errorHandled e]
          | none => [.bpfGetMap "sys_exit_tails",
                     .bpfGetValue "sys_exit_tails" SocketEventID,
                     .bpfDeleteKey "sys_exit_tails" SocketEventID]

/-- The Written-File index key
`fmt.Sprintf("%d/write.dev-%d.inode-%d", ctx.MntID, dev, inode)`. -/
def writeKey (mnt dev inode : Nat) : String :=
  toString mnt ++ "/write.dev-" ++ toString dev ++ ".inode-" ++ toString inode

/-- The vfs_write / vfs_writev case of `processEvent`. -/
def processWrite (cfg : Config) (s : TraceeState) (ctx : EventContext)
    (args : Args) (argMetas : List ArgMeta) : ProcResult :=
  if cfg.Capture.FileWrite then
    match mapGet args "pathname" with
    | some (GoValue.str filePath) =>
        -- path should be absolute, except for e.g. memfd_create files
        if filePath = "" then ⟨none, s, ctx, args, argMetas, []⟩
        else if filePath.data.head? ≠ some '/' then ⟨none, s, ctx, args, argMetas, []⟩
        else
          match mapGet args "dev" with
          | some (GoValue.u32 dev) =>
              match mapGet args "inode" with
              | some (GoValue.u64 inode) =>
                  let fileName := writeKey ctx.MntID dev inode
                  -- stop processing if write was already indexed
                  match mapGet s.writtenFiles fileName with
                  | some indexName =>
                      if indexName = filePath then ⟨none, s, ctx, args, argMetas, []⟩
                      else
                        ⟨none, {s with writtenFiles := mapSet s.writtenFiles fileName filePath},
                         ctx, args, argMetas, []⟩
                  | none =>
                      ⟨none, {s with writtenFiles := mapSet s.writtenFiles fileName filePath},
                       ctx, args, argMetas, []⟩
              | _ => ⟨some "error parsing vfs_write args", s, ctx, args, argMetas, []⟩
          | _ => ⟨some "error parsing vfs_write args", s, ctx, args, argMetas, []⟩
    | _ => ⟨some "error parsing vfs_write args", s, ctx, args, argMetas, []⟩
  else ⟨none, s, ctx, args, argMetas, []⟩

/-- The exec-capture section of the loop body (`if t.config.Capture.Exec`):
directory creation, optional profiling, idempotent copy.  `Except` carries
the early `return err` exits (error, state reached, effects so far). -/
def captureStep (cfg : Config) (env : Env) (s : TraceeState)
    (ctx : EventContext) (filePath sourceFilePath capturedFileID : String)
    (sourceFileCtime : Int) :
    Except (GoError × TraceeState × List Effect) (TraceeState × List Effect) :=
  if cfg.Capture.Exec then
    let destinationDirPath := filepathJoin cfg.Capture.OutputPath (toString ctx.MntID)
    match env.mkdirErr destinationDirPath with
    | some e => .error (e, s, [.mkdir destinationDirPath])
    | none =>
        let destinationFilePath := filepathJoin destinationDirPath
          ("exec." ++ toString ctx.Ts ++ "." ++ filepathBase filePath)
        -- create an in-memory profile
        let profileKey := filepathJoin destinationDirPath
          ("exec." ++ filepathBase filePath) ++ ":" ++ toString sourceFileCtime
        let s1 := if cfg.Capture.Profile then
            {s with profiledFiles := updateProfile s.profiledFiles profileKey ctx.Ts}
          else s
        -- don't capture same file twice unless it was modified
        let cacheHit : Bool := match mapGet s1.capturedFiles capturedFileID with
          | some lastCtime => lastCtime == sourceFileCtime
          | none => false
        if cacheHit then .ok (s1, [.mkdir destinationDirPath])
        else
          match env.copyErr sourceFilePath destinationFilePath with
          | some e => .error (e, s1, [.mkdir destinationDirPath,
                                      .copyFile sourceFilePath destinationFilePath])
          | none =>
              .ok ({s1 with capturedFiles := mapSet s1.capturedFiles capturedFileID sourceFileCtime},
                   [.mkdir destinationDirPath,
                    .copyFile sourceFilePath destinationFilePath])
  else .ok (s, [])

/-- The hash-on-output section of the loop body: consult the hash cache,
recompute and replace on a miss or a change-time mismatch.  Returns the
hash handed to the outgoing event and the updated cache. -/
def hashStep (env : Env) (fileHashes : List (String × FileExecInfo))
    (capturedFileID sourceFilePath : String) (sourceFileCtime : Int) :
    String × List (String × FileExecInfo) :=
  match mapGet fileHashes capturedFileID with
  | some hashInfoObj =>
      -- check if cache can be used
      if hashInfoObj.LastCtime = sourceFileCtime then (hashInfoObj.Hash, fileHashes)
      else
        let currentHash := env.hashOf sourceFilePath
        (currentHash, mapSet fileHashes capturedFileID ⟨sourceFileCtime, currentHash⟩)
  | none =>
      let currentHash := env.hashOf sourceFilePath
      (currentHash, mapSet fileHashes capturedFileID ⟨sourceFileCtime, currentHash⟩)

/-- Format `fmt.Sprintf("/proc/%s/root%s", strconv.Itoa(int(pid)), filePath)`:
the path of the executable as seen through a living process's proc root. -/
def execSrcPath (pid : Nat) (filePath : String) : String :=
  "/proc/" ++ toString pid ++ "/root" ++ filePath

/-- Format `fmt.Sprintf("%d:%s", ctx.MntID, sourceFilePath)`: the Captured-File /
Hash-Cache key for a (namespace, resolved source path) pair. -/
def execFileID (mnt : Nat) (sourceFilePath : String) : String :=
  toString mnt ++ ":" ++ sourceFilePath

/-- The `for _, pid := range pids` loop of the exec case.  The Go loop
body ends in an unconditional `break` (and the copy-failure branch inside
it does `return err`), so only the head candidate is ever examined; the
bound tail `_rest` is never consumed, mirroring the `break`. -/
def execPidLoop (cfg : Config) (env : Env) (s : TraceeState)
    (ctx : EventContext) (args : Args) (argMetas : List ArgMeta)
    (filePath : String) : List Nat → ProcResult
  | [] => ⟨none, s, ctx, args, argMetas, []⟩          -- loop skipped, err = nil
  | pid :: _rest =>
      let sourceFilePath := execSrcPath pid filePath
      match mapGet args "ctime" with
      | some (GoValue.i64 sourceFileCtime) =>
          let capturedFileID := execFileID ctx.MntID sourceFilePath
          match captureStep cfg env s ctx filePath sourceFilePath capturedFileID sourceFileCtime with
          | .error (e, s1, effs) => ⟨some e, s1, ctx, args, argMetas, effs⟩
          | .ok (s1, effs) =>
              if cfg.Output.ExecHash then
                let hashed := hashStep env s1.fileHashes capturedFileID sourceFilePath sourceFileCtime
                ⟨none, {s1 with fileHashes := hashed.2},
                 {ctx with Argnum := ctx.Argnum + 1},
                 mapSet args "sha256" (GoValue.str hashed.1),
                 argMetas ++ [⟨"sha256", "const char*"⟩], effs⟩
              else ⟨none, s1, ctx, args, argMetas, effs⟩
      | _ => ⟨some "error parsing sched_process_exec args: ctime", s, ctx, args, argMetas, []⟩

/-- The sched_process_exec case of `processEvent`. -/
def processExec (cfg : Config) (env : Env) (s : TraceeState)
    (ctx : EventContext) (args : Args) (argMetas : List ArgMeta) : ProcResult :=
  -- cache this pid by its mnt ns
  let s1 := {s with pidsInMntns := pidsAfterInsert s.pidsInMntns ctx}
  -- capture executed files
  if cfg.Capture.Exec || cfg.Output.ExecHash then
    match mapGet args "pathname" with
    | some (GoValue.str filePath) =>
        -- path should be absolute, except for e.g. memfd_create files
        if filePath = "" then ⟨none, s1, ctx, args, argMetas, []⟩
        else if filePath.data.head? ≠ some '/' then ⟨none, s1, ctx, args, argMetas, []⟩
        else
          execPidLoop cfg env s1 ctx args argMetas filePath
            (GetBucket s1.pidsInMntns ctx.MntID)
    | _ => ⟨some "error parsing sched_process_exec args", s1, ctx, args, argMetas, []⟩
  else ⟨none, s1, ctx, args, argMetas, []⟩

/-- Dispatcher `processEvent`: the Event Dispatcher, switching on the event-type
identifier; unmatched types are a no-op returning no error. -/
def processEvent (cfg : Config) (env : Env) (s : TraceeState)
    (ctx : EventContext) (args : Args) (argMetas : List ArgMeta) : ProcResult :=
  if ctx.EventID = VfsWriteEventID ∨ ctx.EventID = VfsWritevEventID then
    processWrite cfg s ctx args argMetas
  else if ctx.EventID = SchedProcessExecEventID then
    processExec cfg env s ctx args argMetas
  else if ctx.EventID = SocketEventID then
    -- removeSocketTailOnce.Do(t.removeSocketTail)
    if s.socketPruned then ⟨none, s, ctx, args, argMetas, []⟩
    else ⟨none, {s with socketPruned := true}, ctx, args, argMetas, removeSocketTail env⟩
  else ⟨none, s, ctx, args, argMetas, []⟩

/-- Sequential delivery of a list of events to the dispatcher, threading
the state and concatenating the effect traces. -/
def processAll (cfg : Config) (env : Env) :
    TraceeState → List (EventContext × Args × List ArgMeta) →
    TraceeState × List Effect
  | s, [] => (s, [])
  | s, (ctx, args, metas) :: rest =>
      let r := processEvent cfg env s ctx args metas
      let tail := processAll cfg env r.st rest
      (tail.1, r.effects ++ tail.2)

/-- Holds iff the optional dynamic value would satisfy a Go `.(string)`
type assertion. -/
def isStrArg : Option GoValue → Bool
  | some (GoValue.str _) => true
  | _ => false

/-- Holds iff the optional dynamic value would satisfy `.(uint32)`. -/
def isU32Arg : Option GoValue → Bool
  | some (GoValue.u32 _) => true
  | _ => false

/-- Holds iff the optional dynamic value would satisfy `.(uint64)`. -/
def isU64Arg : Option GoValue → Bool
  | some (GoValue.u64 _) => true
  | _ => false

/-- Environment in which every filesystem and kernel-map call succeeds. -/
def benignEnv : Env :=
  ⟨fun _ => none, fun _ _ => none, fun p => "h(" ++ p ++ ")",
    fun _ => none, fun _ _ => none, fun _ _ => none⟩

/-- Fresh tracer state at session start. -/
def emptyState : TraceeState := ⟨[], [], [], [], [], false⟩

def execOutcome (cfg : Config) (env : Env) (s : TraceeState)
    (ctx : EventContext) (args : Args) (metas : List ArgMeta)
    (fp : String) (ct : Int) (pid : Nat) : ProcResult :=
  let src := execSrcPath pid fp
  let key := execFileID ctx.MntID src
  let s1 : TraceeState := {s with pidsInMntns := pidsAfterInsert s.pidsInMntns ctx}
  let ddir := filepathJoin cfg.Capture.OutputPath (toString ctx.MntID)
  let dfile := filepathJoin ddir ("exec." ++ toString ctx.Ts ++ "." ++ filepathBase fp)
  let pkey := filepathJoin ddir ("exec." ++ filepathBase fp) ++ ":" ++ toString ct
  let s2 : TraceeState :=
    if cfg.Capture.Exec && cfg.Capture.Profile then
      {s1 with profiledFiles := updateProfile s1.profiledFiles pkey ctx.Ts}
    else s1
  let hit : Bool :=
    match mapGet s2.capturedFiles key with
    | some lastCtime => lastCtime == ct
    | none => false
  let s3 : TraceeState :=
    if cfg.Capture.Exec && !hit then
      {s2 with capturedFiles := mapSet s2.capturedFiles key ct}
    else s2
  let capEffs : List Effect :=
    if cfg.Capture.Exec then
      (if hit then [.mkdir ddir] else [.mkdir ddir, .copyFile src dfile])
    else []
  if cfg.Output.ExecHash then
    let hashed := hashStep env s3.fileHashes key src ct
    ⟨none, {s3 with fileHashes := hashed.2}, {ctx with Argnum := ctx.Argnum + 1},
      mapSet args "sha256" (GoValue.str hashed.1),
      metas ++ [⟨"sha256", "const char*"⟩], capEffs⟩
  else ⟨none, s3, ctx, args, metas, capEffs⟩

/-- The `lastCtime, ok := t.capturedFiles[id]; ok && lastCtime == ctime`
test deciding whether a capture is skipped. -/
def ctimeHit (captured : List (String × Int)) (key : String) (ct : Int) : Bool :=
  match mapGet captured key with
  | some lastCtime => lastCtime == ct
  | none => false

/-- Environment in which resolution through PID 4's proc root fails while
every other path (in particular through PID 5) succeeds. -/
def raceEnv : Env :=
  ⟨fun _ => none,
    fun src _ =>
      if src = execSrcPath 4 "/bin/ls" then some "no such file or directory"
      else none,
    fun p => "h(" ++ p ++ ")",
    fun _ => none, fun _ _ => none, fun _ _ => none⟩

/-- State in which namespace 7's PID bucket already holds the (dead)
process 4; the incoming event's host PID 5 joins it. -/
def raceState : TraceeState := ⟨[], [(7, [4])], [], [], [], false⟩

def raceCfg : Config :=
  ⟨⟨⟨false, []⟩, ⟨false, []⟩⟩, ⟨false, true, false, "/tmp/out"⟩, ⟨false⟩⟩

def raceCtx : EventContext := ⟨1002, 9, 5, 7, 100, 0, 2⟩

def raceArgs : Args :=
  [("pathname", GoValue.str "/bin/ls"), ("ctime", GoValue.i64 1000)]

/-- The state reached by the exec-capture section regardless of which exit
(`return err` or fall-through) it took. -/
def exceptStState :
    Except (GoError × TraceeState × List Effect) (TraceeState × List Effect) →
    TraceeState
  | .error (_, st, _) => st
  | .ok (st, _) => st

theorem mapGet_mapSet_self {K V : Type} [DecidableEq K]
    (m : List (K × V)) (k : K) (v : V) : mapGet (mapSet m k v) k = some v := by
  induction m with
  | nil => simp [mapGet, mapSet]
  | cons p rest ih =>
      by_cases h : p.1 = k
      · simp [mapSet, h, mapGet]
      · simp [mapSet, h, mapGet, ih]

theorem mapGet_mapSet_ne {K V : Type} [DecidableEq K]
    (m : List (K × V)) (k k' : K) (v : V) (h : k ≠ k') :
    mapGet (mapSet m k v) k' = mapGet m k' := by
  induction m with
  | nil => simp [mapGet, mapSet, h]
  | cons p rest ih =>
      by_cases hp : p.1 = k
      · simp [mapSet, hp, mapGet, h]
      · simp [mapSet, hp, mapGet, ih]

theorem keyCount_eq_zero_of_mapGet_none {K V : Type} [DecidableEq K]
    (m : List (K × V)) (k : K) (h : mapGet m k = none) : keyCount m k = 0 := by
  induction m with
  | nil => simp [keyCount]
  | cons p rest ih =>
      by_cases hp : p.1 = k
      · simp [mapGet, hp] at h
      · simp only [mapGet, hp, if_neg] at h
        simp [keyCount, List.filter, hp] at ih ⊢
        simpa [keyCount, List.filter] using ih h

theorem mapSet_of_mapGet_none {K V : Type} [DecidableEq K]
    (m : List (K × V)) (k : K) (v : V) (h : mapGet m k = none) :
    mapSet m k v = m ++ [(k, v)] := by
  induction m with
  | nil => simp [mapSet]
  | cons p rest ih =>
      by_cases hp : p.1 = k
      · simp [mapGet, hp] at h
      · simp only [mapGet, hp, if_neg] at h
        simp [mapSet, hp, ih h]

theorem keyCount_append_self {K V : Type} [DecidableEq K]
    (m : List (K × V)) (k : K) (v : V) :
    keyCount (m ++ [(k, v)]) k = keyCount m k + 1 := by
  simp [keyCount, List.filter_append]

/-! ## Lemmas about the Filter Evaluator -/

theorem intListMatch_iff (r : Int) (l : List Int) :
    intListMatch r l = true ↔ r ∈ l := by
  induction l with
  | nil => simp [intListMatch]
  | cons f fs ih => by_cases h : r = f <;> simp [intListMatch, h, ih]

theorem retFilterPass_iff (flt : RetFilterEntry) (r : Int)
    (hg : flt.Greater ≠ GreaterNotSetInt) (hl : flt.Less ≠ LessNotSetInt) :
    retFilterPass flt r = true ↔
      (flt.Greater < r ∧ r < flt.Less ∧ r ∉ flt.NotEqual ∧
        (flt.Equal = [] ∨ r ∈ flt.Equal)) := by
  unfold retFilterPass
  split_ifs with c1 c2 c3 c4
  · simp only [Bool.false_eq_true, false_iff]
    intro ⟨_, _, _, h4⟩
    rcases c1 with ⟨ce, cne⟩
    rcases h4 with h4 | h4
    · exact cne h4
    · rw [(intListMatch_iff r flt.Equal).mpr h4] at ce; cases ce
  · simp only [Bool.false_eq_true, false_iff]
    intro ⟨_, _, h3, _⟩
    exact h3 ((intListMatch_iff r flt.NotEqual).mp c2)
  · simp only [Bool.false_eq_true, false_iff]
    intro ⟨h1, _, _, _⟩
    exact absurd h1 (not_lt.mpr c3.2)
  · simp only [Bool.false_eq_true, false_iff]
    intro ⟨_, h2, _, _⟩
    exact absurd h2 (not_lt.mpr c4.2)
  · simp only [true_iff]
    refine ⟨?_, ?_, ?_, ?_⟩
    · rcases not_and_or.mp c3 with h | h
      · exact absurd hg h
      · exact lt_of_not_le h
    · rcases not_and_or.mp c4 with h | h
      · exact absurd hl h
      · exact lt_of_not_le h
    · intro hmem
      exact c2 ((intListMatch_iff r flt.NotEqual).mpr hmem)
    · rcases not_and_or.mp c1 with h | h
      · right
        refine (intListMatch_iff r flt.Equal).mp ?_
        rcases Bool.eq_false_or_eq_true (intListMatch r flt.Equal) with hb | hb
        · exact hb
        · exact absurd hb h
      · left
        exact not_not.mp h

/-- C3: with return-value filtering enabled, a filter entry for the event
type with both numeric bounds set, and argument filtering disabled (the
claim isolates the return-value family), `shouldProcessEvent` keeps the
event iff `lower < retval < upper`, the value is not reject-listed, and
the accept-list is empty or lists the value. -/
theorem spec_C3 (cfg : Config) (ctx : EventContext) (args : Args)
    (flt : RetFilterEntry)
    (hre : cfg.Filter.RetFilter.Enabled = true)
    (hlook : mapGet cfg.Filter.RetFilter.Filters ctx.EventID = some flt)
    (hg : flt.Greater ≠ GreaterNotSetInt) (hl : flt.Less ≠ LessNotSetInt)
    (ha : cfg.Filter.ArgFilter.Enabled = false) :
    shouldProcessEvent cfg ctx args = some true ↔
      (flt.Greater < ctx.Retval ∧ ctx.Retval < flt.Less ∧
        ctx.Retval ∉ flt.NotEqual ∧
        (flt.Equal = [] ∨ ctx.Retval ∈ flt.Equal)) := by
  rw [← retFilterPass_iff flt ctx.Retval hg hl]
  unfold shouldProcessEvent
  rw [hre, hlook, ha]
  rcases Bool.eq_false_or_eq_true (retFilterPass flt ctx.Retval) with hb | hb <;>
    simp [hb]

theorem spec_C3_witness :
    ((⟨⟨⟨true, [(42, ⟨[], [7], 0, 100⟩)]⟩, ⟨false, []⟩⟩,
        ⟨false, false, false, ""⟩, ⟨false⟩⟩ : Config).Filter.RetFilter.Enabled = true ∧
      (5 : Int) ∈ Set.Ioo (0 : Int) 100) ∧
    (shouldProcessEvent
        ⟨⟨⟨true, [(42, ⟨[], [7], 0, 100⟩)]⟩, ⟨false, []⟩⟩,
          ⟨false, false, false, ""⟩, ⟨false⟩⟩
        ⟨42, 1, 1, 1, 0, 5, 0⟩ [] = some true ↔
      ((0 : Int) < 5 ∧ (5 : Int) < 100 ∧ (5 : Int) ∉ ([7] : List Int) ∧
        (([] : List Int) = [] ∨ (5 : Int) ∈ ([] : List Int)))) :=
  ⟨⟨rfl, by constructor <;> decide⟩,
    spec_C3 _ ⟨42, 1, 1, 1, 0, 5, 0⟩ [] ⟨[], [7], 0, 100⟩ rfl rfl
      (by decide) (by decide) rfl⟩

theorem string_data_ne_nil {f : String} (h : f ≠ "") : f.data ≠ [] := by
  intro hd
  apply h
  cases f with
  | mk d => cases hd; rfl

/-- C4: a pattern ending in the wildcard marker matches exactly the values
carrying the pattern-minus-marker as a prefix; a pattern not ending in the
marker matches exactly the equal value; a configured argument name absent
from the event's argument map is skipped, leaving the decision to the
remaining filters. -/
theorem spec_C4 :
    (∀ f v : String, f.data.getLast? = some '*' →
        (patMatch v f = some true ↔ f.data.dropLast.isPrefixOf v.data = true)) ∧
    (∀ f v : String, f ≠ "" → f.data.getLast? ≠ some '*' →
        (patMatch v f = some true ↔ v = f)) ∧
    (∀ (args : Args) (name : String) (flt : ArgFilterEntry)
        (rest : List (String × ArgFilterEntry)), mapGet args name = none →
        argFiltersLoop args ((name, flt) :: rest) = argFiltersLoop args rest) := by
  refine ⟨?_, ?_, ?_⟩
  · intro f v h
    by_cases hv : v = f
    · subst hv
      simp only [patMatch, if_pos rfl, true_iff, List.isPrefixOf_iff_prefix]
      exact ⟨fun _ => List.dropLast_prefix _, fun _ => rfl⟩
    · simp [patMatch, hv, h]
  · intro f v hne hlast
    have hdata : f.data ≠ [] := string_data_ne_nil hne
    have hc : f.data.getLast? = some (f.data.getLast hdata) :=
      List.getLast?_eq_getLast_of_ne_nil hdata
    have hcne : f.data.getLast hdata ≠ '*' := by
      intro h
      exact hlast (by rw [hc, h])
    by_cases hv : v = f
    · simp [patMatch, hv]
    · simp [patMatch, hv, hc, hcne]
  · intro args name flt rest h
    simp [argFiltersLoop, argFilterOne, h]

theorem spec_C4_witness :
    ("foo*".data.getLast? = some '*' ∧
      (patMatch "foobar" "foo*" = some true ↔
        "foo*".data.dropLast.isPrefixOf "foobar".data = true)) ∧
    (patMatch "foo" "foo" = some true ↔ ("foo" : String) = "foo") ∧
    argFiltersLoop [("y", GoValue.str "v")] [("x", ⟨["a"], []⟩)] =
      argFiltersLoop [("y", GoValue.str "v")] [] :=
  ⟨⟨by decide, spec_C4.1 "foo*" "foobar" (by decide)⟩,
    spec_C4.2.1 "foo" "foo" (by decide) (by decide),
    spec_C4.2.2 [("y", GoValue.str "v")] "x" ⟨["a"], []⟩ [] (by decide)⟩

/-- C10 as stated is false: with the empty-string pattern configured and
the named argument present with the empty textual value, the equality
disjunct short-circuits before `f[len(f)-1]` is evaluated, so evaluation
returns a pass decision (`some true`) instead of aborting (`none`). -/
theorem spec_C10_counterexample :
    shouldProcessEvent
      ⟨⟨⟨false, []⟩, ⟨true, [(1002, [("x", ⟨[""], []⟩)])]⟩⟩,
        ⟨false, false, false, ""⟩, ⟨false⟩⟩
      ⟨1002, 1, 1, 1, 0, 0, 0⟩ [("x", GoValue.str "")] = some true := by decide

theorem patMatch_empty_pattern (v : String) (hv : v ≠ "") :
    patMatch v "" = none := by
  simp [patMatch, hv]

theorem equalLoop_reaches_empty (v : String) (hv : v ≠ "")
    (fs1 fs2 : List String) (h1 : ∀ f ∈ fs1, patMatch v f = some false) :
    equalLoop v (fs1 ++ "" :: fs2) = none := by
  induction fs1 with
  | nil => simp [equalLoop, patMatch_empty_pattern v hv]
  | cons f fs ih =>
      have hf := h1 f (by simp)
      simp only [List.cons_append, equalLoop, hf]
      exact ih fun g hg => h1 g (by simp [hg])

/-- C10 amended: argument-filter evaluation is total only for non-empty
patterns.  With the empty-string pattern in an accept list, the named
argument present with a NON-EMPTY textual form, and no earlier accept
pattern matching it, matching indexes the empty pattern's last character
and evaluation aborts instead of returning a pass/drop decision. -/
theorem spec_C10_amended (cfg : Config) (ctx : EventContext) (args : Args)
    (name : String) (gv : GoValue) (fs1 fs2 ne : List String)
    (hre : cfg.Filter.RetFilter.Enabled = false)
    (hae : cfg.Filter.ArgFilter.Enabled = true)
    (hflt : mapGet cfg.Filter.ArgFilter.Filters ctx.EventID =
      some [(name, ⟨fs1 ++ "" :: fs2, ne⟩)])
    (harg : mapGet args name = some gv)
    (hv : goSprint gv ≠ "")
    (h1 : ∀ f ∈ fs1, patMatch (goSprint gv) f = some false) :
    shouldProcessEvent cfg ctx args = none := by
  unfold shouldProcessEvent
  simp [hre, hae, hflt, argFiltersLoop, argFilterOne, harg,
    equalLoop_reaches_empty (goSprint gv) hv fs1 fs2 h1]

theorem spec_C10_amended_witness :
    (goSprint (GoValue.str "a") ≠ "" ∧
      (∀ f ∈ ["b"], patMatch (goSprint (GoValue.str "a")) f = some false)) ∧
    shouldProcessEvent
      ⟨⟨⟨false, []⟩, ⟨true, [(5, [("x", ⟨["b", ""], []⟩)])]⟩⟩,
        ⟨false, false, false, ""⟩, ⟨false⟩⟩
      ⟨5, 1, 1, 1, 0, 0, 0⟩ [("x", GoValue.str "a")] = none :=
  ⟨⟨by decide, by decide⟩,
    spec_C10_amended _ ⟨5, 1, 1, 1, 0, 0, 0⟩ [("x", GoValue.str "a")]
      "x" (GoValue.str "a") ["b"] [] [] rfl rfl rfl rfl
      (by decide) (by decide)⟩

/-! ## The write-event path (C7, C8) -/


theorem processEvent_write (cfg : Config) (env : Env) (s : TraceeState)
    (ctx : EventContext) (args : Args) (metas : List ArgMeta)
    (hid : ctx.EventID = VfsWriteEventID ∨ ctx.EventID = VfsWritevEventID) :
    processEvent cfg env s ctx args metas = processWrite cfg s ctx args metas := by
  unfold processEvent
  rcases hid with h | h <;> simp [h]

theorem processWrite_fresh (cfg : Config) (s : TraceeState)
    (ctx : EventContext) (args : Args) (metas : List ArgMeta)
    (p : String) (dev inode : Nat)
    (hw : cfg.Capture.FileWrite = true)
    (hp : mapGet args "pathname" = some (GoValue.str p))
    (habs : p.data.head? = some '/')
    (hd : mapGet args "dev" = some (GoValue.u32 dev))
    (hi : mapGet args "inode" = some (GoValue.u64 inode))
    (hkey : mapGet s.writtenFiles (writeKey ctx.MntID dev inode) = none) :
    processWrite cfg s ctx args metas =
      ⟨none,
        {s with writtenFiles :=
          mapSet s.writtenFiles (writeKey ctx.MntID dev inode) p},
        ctx, args, metas, []⟩ := by
  have hne : p ≠ "" := by
    intro h
    subst h
    simp at habs
  unfold processWrite
  simp [hw, hp, hne, habs, hd, hi, hkey]

theorem processWrite_indexed (cfg : Config) (s : TraceeState)
    (ctx : EventContext) (args : Args) (metas : List ArgMeta)
    (p : String) (dev inode : Nat)
    (hw : cfg.Capture.FileWrite = true)
    (hp : mapGet args "pathname" = some (GoValue.str p))
    (habs : p.data.head? = some '/')
    (hd : mapGet args "dev" = some (GoValue.u32 dev))
    (hi : mapGet args "inode" = some (GoValue.u64 inode))
    (hkey : mapGet s.writtenFiles (writeKey ctx.MntID dev inode) = some p) :
    processWrite cfg s ctx args metas = ⟨none, s, ctx, args, metas, []⟩ := by
  have hne : p ≠ "" := by
    intro h
    subst h
    simp at habs
  unfold processWrite
  simp [hw, hp, hne, habs, hd, hi, hkey]

/-- C7: with write-capture enabled, a well-typed write event for a fresh
(mount, dev, inode) key updates the Written-File index; delivering the
identical event again returns no error on either call, leaves exactly one
index entry for the key, and the second call changes no state at all. -/
theorem spec_C7 (cfg : Config) (env : Env) (s : TraceeState)
    (ctx : EventContext) (args : Args) (metas : List ArgMeta)
    (p : String) (dev inode : Nat)
    (hw : cfg.Capture.FileWrite = true)
    (hid : ctx.EventID = VfsWriteEventID ∨ ctx.EventID = VfsWritevEventID)
    (hp : mapGet args "pathname" = some (GoValue.str p))
    (habs : p.data.head? = some '/')
    (hd : mapGet args "dev" = some (GoValue.u32 dev))
    (hi : mapGet args "inode" = some (GoValue.u64 inode))
    (hkey : mapGet s.writtenFiles (writeKey ctx.MntID dev inode) = none) :
    (processEvent cfg env s ctx args metas).err = none ∧
    (processEvent cfg env s ctx args metas).st.writtenFiles =
      s.writtenFiles ++ [(writeKey ctx.MntID dev inode, p)] ∧
    keyCount (processEvent cfg env s ctx args metas).st.writtenFiles
      (writeKey ctx.MntID dev inode) = 1 ∧
    (processEvent cfg env (processEvent cfg env s ctx args metas).st
        ctx args metas).err = none ∧
    (processEvent cfg env (processEvent cfg env s ctx args metas).st
        ctx args metas).st = (processEvent cfg env s ctx args metas).st := by
  rw [processEvent_write cfg env s ctx args metas hid,
    processWrite_fresh cfg s ctx args metas p dev inode hw hp habs hd hi hkey]
  have hset := mapSet_of_mapGet_none s.writtenFiles
    (writeKey ctx.MntID dev inode) p hkey
  refine ⟨rfl, by simpa using hset, ?_, ?_, ?_⟩
  · show keyCount (mapSet s.writtenFiles (writeKey ctx.MntID dev inode) p)
      (writeKey ctx.MntID dev inode) = 1
    rw [hset, keyCount_append_self,
      keyCount_eq_zero_of_mapGet_none s.writtenFiles _ hkey]
  · rw [processEvent_write cfg env _ ctx args metas hid,
      processWrite_indexed cfg _ ctx args metas p dev inode hw hp habs hd hi
        (by simpa using mapGet_mapSet_self s.writtenFiles (writeKey ctx.MntID dev inode) p)]
  · rw [processEvent_write cfg env _ ctx args metas hid,
      processWrite_indexed cfg _ ctx args metas p dev inode hw hp habs hd hi
        (by simpa using mapGet_mapSet_self s.writtenFiles (writeKey ctx.MntID dev inode) p)]

theorem spec_C7_witness :
    (mapGet (emptyState.writtenFiles) (writeKey 3 8 100) = none ∧
      mapGet ([("pathname", GoValue.str "/tmp/a"), ("dev", GoValue.u32 8),
        ("inode", GoValue.u64 100)] : Args) "pathname" =
        some (GoValue.str "/tmp/a")) ∧
    ((processEvent
        ⟨⟨⟨false, []⟩, ⟨false, []⟩⟩, ⟨true, false, false, ""⟩, ⟨false⟩⟩
        benignEnv emptyState ⟨1000, 2, 2, 3, 0, 0, 0⟩
        [("pathname", GoValue.str "/tmp/a"), ("dev", GoValue.u32 8),
          ("inode", GoValue.u64 100)] []).err = none ∧
      (processEvent
        ⟨⟨⟨false, []⟩, ⟨false, []⟩⟩, ⟨true, false, false, ""⟩, ⟨false⟩⟩
        benignEnv emptyState ⟨1000, 2, 2, 3, 0, 0, 0⟩
        [("pathname", GoValue.str "/tmp/a"), ("dev", GoValue.u32 8),
          ("inode", GoValue.u64 100)] []).st.writtenFiles =
        emptyState.writtenFiles ++ [(writeKey 3 8 100, "/tmp/a")]) :=
  ⟨⟨by decide, by decide⟩,
    (spec_C7 _ benignEnv emptyState ⟨1000, 2, 2, 3, 0, 0, 0⟩ _ []
        "/tmp/a" 8 100 rfl (Or.inl rfl) (by decide) (by decide) (by decide)
        (by decide) (by decide)).1,
    (spec_C7 _ benignEnv emptyState ⟨1000, 2, 2, 3, 0, 0, 0⟩ _ []
        "/tmp/a" 8 100 rfl (Or.inl rfl) (by decide) (by decide) (by decide)
        (by decide) (by decide)).2.1⟩

/-- C8 as stated is false: with write-capture enabled, `dev` absent and
`pathname` present as the empty string, the claim's first part demands a
parse error, but the dispatcher takes the empty-path early return and
reports no error (the argument checks are ordered, `pathname` first). -/
theorem spec_C8_counterexample :
    mapGet ([("pathname", GoValue.str "")] : Args) "dev" = none ∧
    (processEvent
      ⟨⟨⟨false, []⟩, ⟨false, []⟩⟩, ⟨true, false, false, ""⟩, ⟨false⟩⟩
      benignEnv emptyState ⟨1000, 2, 2, 3, 0, 0, 0⟩
      [("pathname", GoValue.str "")] []).err = none := by
  constructor <;> decide

/-- C8 amended: with write-capture enabled, the dispatcher returns a parse
error when `pathname` is absent or mistyped; when `pathname` is a string
that is empty or not absolute it returns no error (ignoring the event)
without inspecting `dev`/`inode`; and only for a non-empty absolute
`pathname` does an absent or mistyped `dev` or `inode` yield a parse
error. -/
theorem spec_C8_amended (cfg : Config) (env : Env) (s : TraceeState)
    (ctx : EventContext) (args : Args) (metas : List ArgMeta)
    (hw : cfg.Capture.FileWrite = true)
    (hid : ctx.EventID = VfsWriteEventID ∨ ctx.EventID = VfsWritevEventID) :
    (isStrArg (mapGet args "pathname") = false →
      (processEvent cfg env s ctx args metas).err =
        some "error parsing vfs_write args") ∧
    (∀ p : String, mapGet args "pathname" = some (GoValue.str p) →
      (p = "" ∨ p.data.head? ≠ some '/') →
      (processEvent cfg env s ctx args metas).err = none) ∧
    (∀ p : String, mapGet args "pathname" = some (GoValue.str p) →
      p ≠ "" → p.data.head? = some '/' →
      (isU32Arg (mapGet args "dev") = false ∨
        isU64Arg (mapGet args "inode") = false) →
      (processEvent cfg env s ctx args metas).err =
        some "error parsing vfs_write args") := by
  rw [processEvent_write cfg env s ctx args metas hid]
  unfold processWrite
  refine ⟨?_, ?_, ?_⟩
  · intro h
    rcases hm : mapGet args "pathname" with _ | gv
    · simp [hw, hm]
    · cases gv <;> simp_all [isStrArg, hw, hm]
  · intro p hp hcase
    rcases hcase with h | h
    · subst h
      simp [hw, hp]
    · by_cases hpe : p = ""
      · simp [hw, hp, hpe]
      · simp [hw, hp, hpe, h]
  · intro p hp hne hhead hbad
    rcases hm : mapGet args "dev" with _ | gv
    · simp [hw, hp, hne, hhead, hm]
    · cases gv with
      | u32 d =>
          rcases hbad with hb | hb
          · rw [hm] at hb
            simp [isU32Arg] at hb
          · rcases hmi : mapGet args "inode" with _ | gvi
            · simp [hw, hp, hne, hhead, hm, hmi]
            · cases gvi with
              | u64 i =>
                  rw [hmi] at hb
                  simp [isU64Arg] at hb
              | _ => simp [hw, hp, hne, hhead, hm, hmi]
      | _ => simp [hw, hp, hne, hhead, hm]

theorem spec_C8_amended_witness :
    isU32Arg (mapGet ([("pathname", GoValue.str "/tmp/a"),
      ("dev", GoValue.u64 8)] : Args) "dev") = false ∧
    (processEvent
      ⟨⟨⟨false, []⟩, ⟨false, []⟩⟩, ⟨true, false, false, ""⟩, ⟨false⟩⟩
      benignEnv emptyState ⟨1001, 2, 2, 3, 0, 0, 0⟩
      [("pathname", GoValue.str "/tmp/a"), ("dev", GoValue.u64 8)] []).err =
      some "error parsing vfs_write args" :=
  ⟨by decide,
    (spec_C8_amended _ benignEnv emptyState ⟨1001, 2, 2, 3, 0, 0, 0⟩
        [("pathname", GoValue.str "/tmp/a"), ("dev", GoValue.u64 8)] []
        rfl (Or.inr rfl)).2.2 "/tmp/a" (by decide) (by decide) (by decide)
      (Or.inl (by decide))⟩

/-! ## The exec-event path (C1, C5, C6, C9)

`execOutcome` is a proof-side restatement of what the exec case computes
for the head PID candidate under a non-failing filesystem; the lemma
`processEvent_exec` proves `processEvent` equal to it. -/


theorem processEvent_exec (cfg : Config) (env : Env) (s : TraceeState)
    (ctx : EventContext) (args : Args) (metas : List ArgMeta)
    (fp : String) (ct : Int) (pid : Nat) (rest : List Nat)
    (hid : ctx.EventID = SchedProcessExecEventID)
    (hp : mapGet args "pathname" = some (GoValue.str fp))
    (habs : fp.data.head? = some '/')
    (hct : mapGet args "ctime" = some (GoValue.i64 ct))
    (hmk : ∀ d, env.mkdirErr d = none)
    (hcp : ∀ a b, env.copyErr a b = none)
    (hbucket : GetBucket (pidsAfterInsert s.pidsInMntns ctx) ctx.MntID = pid :: rest) :
    processEvent cfg env s ctx args metas =
      execOutcome cfg env s ctx args metas fp ct pid := by
  have hne : fp ≠ "" := by
    intro h
    subst h
    simp at habs
  unfold processEvent
  simp only [hid, SchedProcessExecEventID, VfsWriteEventID, VfsWritevEventID,
    SocketEventID]
  norm_num
  unfold processExec execOutcome
  cases hExec : cfg.Capture.Exec <;> cases hHash : cfg.Output.ExecHash <;>
    cases hProf : cfg.Capture.Profile <;>
    simp [hExec, hHash, hProf, hp, hne, habs, hbucket, execPidLoop, hct,
      captureStep, hmk, hcp]
  all_goals
    cases hcap : mapGet s.capturedFiles (execFileID ctx.MntID (execSrcPath pid fp)) with
    | none => simp [hcap]
    | some lc => cases hlc : lc == ct <;> simp [hcap, hlc]


theorem execOutcome_err (cfg : Config) (env : Env) (s : TraceeState)
    (ctx : EventContext) (args : Args) (metas : List ArgMeta)
    (fp : String) (ct : Int) (pid : Nat) :
    (execOutcome cfg env s ctx args metas fp ct pid).err = none := by
  unfold execOutcome
  cases hHash : cfg.Output.ExecHash <;> simp [hHash]

theorem execOutcome_pidsInMntns (cfg : Config) (env : Env) (s : TraceeState)
    (ctx : EventContext) (args : Args) (metas : List ArgMeta)
    (fp : String) (ct : Int) (pid : Nat) :
    (execOutcome cfg env s ctx args metas fp ct pid).st.pidsInMntns =
      pidsAfterInsert s.pidsInMntns ctx := by
  unfold execOutcome
  cases hHash : cfg.Output.ExecHash <;> cases hExec : cfg.Capture.Exec <;>
    cases hProf : cfg.Capture.Profile <;> simp [hHash, hExec, hProf] <;>
    (try (split <;> simp))

theorem execOutcome_capturedFiles_exec (cfg : Config) (env : Env)
    (s : TraceeState) (ctx : EventContext) (args : Args) (metas : List ArgMeta)
    (fp : String) (ct : Int) (pid : Nat)
    (hexec : cfg.Capture.Exec = true) :
    (execOutcome cfg env s ctx args metas fp ct pid).st.capturedFiles =
      (if ctimeHit s.capturedFiles (execFileID ctx.MntID (execSrcPath pid fp)) ct
       then s.capturedFiles
       else mapSet s.capturedFiles (execFileID ctx.MntID (execSrcPath pid fp)) ct) := by
  unfold execOutcome ctimeHit
  cases hHash : cfg.Output.ExecHash <;> cases hProf : cfg.Capture.Profile <;>
    simp [hHash, hexec, hProf] <;>
    cases hcap : mapGet s.capturedFiles (execFileID ctx.MntID (execSrcPath pid fp)) with
    | none => simp [hcap]
    | some lc => cases hlc : lc == ct <;> simp [hcap, hlc]

theorem execOutcome_copyCount_exec (cfg : Config) (env : Env)
    (s : TraceeState) (ctx : EventContext) (args : Args) (metas : List ArgMeta)
    (fp : String) (ct : Int) (pid : Nat)
    (hexec : cfg.Capture.Exec = true) :
    copyCount (execOutcome cfg env s ctx args metas fp ct pid).effects =
      (if ctimeHit s.capturedFiles (execFileID ctx.MntID (execSrcPath pid fp)) ct
       then 0 else 1) := by
  unfold execOutcome ctimeHit
  cases hHash : cfg.Output.ExecHash <;> cases hProf : cfg.Capture.Profile <;>
    simp [hHash, hexec, hProf] <;>
    cases hcap : mapGet s.capturedFiles (execFileID ctx.MntID (execSrcPath pid fp)) with
    | none => simp [hcap, copyCount]
    | some lc => cases hlc : lc == ct <;> simp [hcap, hlc, copyCount]

theorem execOutcome_hash_args (cfg : Config) (env : Env) (s : TraceeState)
    (ctx : EventContext) (args : Args) (metas : List ArgMeta)
    (fp : String) (ct : Int) (pid : Nat)
    (hhash : cfg.Output.ExecHash = true) :
    (execOutcome cfg env s ctx args metas fp ct pid).args =
      mapSet args "sha256" (GoValue.str
        (hashStep env s.fileHashes (execFileID ctx.MntID (execSrcPath pid fp))
          (execSrcPath pid fp) ct).1) := by
  unfold execOutcome
  cases hExec : cfg.Capture.Exec <;> cases hProf : cfg.Capture.Profile <;>
    simp [hhash, hExec, hProf] <;>
    (try (split <;> simp))

theorem execOutcome_hash_fileHashes (cfg : Config) (env : Env)
    (s : TraceeState) (ctx : EventContext) (args : Args) (metas : List ArgMeta)
    (fp : String) (ct : Int) (pid : Nat)
    (hhash : cfg.Output.ExecHash = true) :
    (execOutcome cfg env s ctx args metas fp ct pid).st.fileHashes =
      (hashStep env s.fileHashes (execFileID ctx.MntID (execSrcPath pid fp))
        (execSrcPath pid fp) ct).2 := by
  unfold execOutcome
  cases hExec : cfg.Capture.Exec <;> cases hProf : cfg.Capture.Profile <;>
    simp [hhash, hExec, hProf] <;>
    (try (split <;> simp))

theorem execOutcome_hash_argMetas (cfg : Config) (env : Env)
    (s : TraceeState) (ctx : EventContext) (args : Args) (metas : List ArgMeta)
    (fp : String) (ct : Int) (pid : Nat)
    (hhash : cfg.Output.ExecHash = true) :
    (execOutcome cfg env s ctx args metas fp ct pid).argMetas =
      metas ++ [⟨"sha256", "const char*"⟩] := by
  unfold execOutcome
  simp [hhash]

theorem execOutcome_hash_argnum (cfg : Config) (env : Env) (s : TraceeState)
    (ctx : EventContext) (args : Args) (metas : List ArgMeta)
    (fp : String) (ct : Int) (pid : Nat)
    (hhash : cfg.Output.ExecHash = true) :
    (execOutcome cfg env s ctx args metas fp ct pid).ctx.Argnum =
      ctx.Argnum + 1 := by
  unfold execOutcome
  simp [hhash]

theorem hashStep_hit (env : Env) (fh : List (String × FileExecInfo))
    (key src : String) (ct : Int) (info : FileExecInfo)
    (hlook : mapGet fh key = some info) (heq : info.LastCtime = ct) :
    hashStep env fh key src ct = (info.Hash, fh) := by
  unfold hashStep
  rw [hlook]
  simp [heq]

theorem hashStep_stale (env : Env) (fh : List (String × FileExecInfo))
    (key src : String) (ct : Int) (info : FileExecInfo)
    (hlook : mapGet fh key = some info) (hne : info.LastCtime ≠ ct) :
    hashStep env fh key src ct =
      (env.hashOf src, mapSet fh key ⟨ct, env.hashOf src⟩) := by
  unfold hashStep
  rw [hlook]
  simp [hne]

theorem hashStep_miss (env : Env) (fh : List (String × FileExecInfo))
    (key src : String) (ct : Int) (hlook : mapGet fh key = none) :
    hashStep env fh key src ct =
      (env.hashOf src, mapSet fh key ⟨ct, env.hashOf src⟩) := by
  unfold hashStep
  rw [hlook]

/-- C9: an exec event with hash-on-output enabled, an absolute pathname, a
well-typed ctime, and a non-empty namespace PID bucket (under a
non-failing filesystem) gets `args["sha256"]` set to the computed or
cached hash, exactly one `("sha256", "const char*")` descriptor appended
to `argMetas`, the context's argument count incremented by exactly one,
and no error. -/
theorem spec_C9 (cfg : Config) (env : Env) (s : TraceeState)
    (ctx : EventContext) (args : Args) (metas : List ArgMeta)
    (fp : String) (ct : Int) (pid : Nat) (rest : List Nat)
    (hid : ctx.EventID = SchedProcessExecEventID)
    (hp : mapGet args "pathname" = some (GoValue.str fp))
    (habs : fp.data.head? = some '/')
    (hct : mapGet args "ctime" = some (GoValue.i64 ct))
    (hmk : ∀ d, env.mkdirErr d = none)
    (hcp : ∀ a b, env.copyErr a b = none)
    (hbucket : GetBucket (pidsAfterInsert s.pidsInMntns ctx) ctx.MntID = pid :: rest)
    (hhash : cfg.Output.ExecHash = true) :
    ∃ h : String,
      mapGet (processEvent cfg env s ctx args metas).args "sha256" =
        some (GoValue.str h) ∧
      (processEvent cfg env s ctx args metas).argMetas =
        metas ++ [⟨"sha256", "const char*"⟩] ∧
      (processEvent cfg env s ctx args metas).ctx.Argnum = ctx.Argnum + 1 ∧
      (processEvent cfg env s ctx args metas).err = none := by
  rw [processEvent_exec cfg env s ctx args metas fp ct pid rest hid hp habs hct
    hmk hcp hbucket]
  refine ⟨(hashStep env s.fileHashes (execFileID ctx.MntID (execSrcPath pid fp))
    (execSrcPath pid fp) ct).1, ?_, ?_, ?_, ?_⟩
  · rw [execOutcome_hash_args cfg env s ctx args metas fp ct pid hhash]
    exact mapGet_mapSet_self args "sha256" _
  · exact execOutcome_hash_argMetas cfg env s ctx args metas fp ct pid hhash
  · exact execOutcome_hash_argnum cfg env s ctx args metas fp ct pid hhash
  · exact execOutcome_err cfg env s ctx args metas fp ct pid

theorem spec_C9_witness :
    mapGet ([("pathname", GoValue.str "/bin/ls"), ("ctime", GoValue.i64 1000)] : Args)
      "pathname" = some (GoValue.str "/bin/ls") ∧
    ∃ h : String,
      mapGet (processEvent
        ⟨⟨⟨false, []⟩, ⟨false, []⟩⟩, ⟨false, false, false, ""⟩, ⟨true⟩⟩
        benignEnv emptyState ⟨1002, 9, 5, 7, 100, 0, 2⟩
        [("pathname", GoValue.str "/bin/ls"), ("ctime", GoValue.i64 1000)] []).args
        "sha256" = some (GoValue.str h) ∧
      (processEvent
        ⟨⟨⟨false, []⟩, ⟨false, []⟩⟩, ⟨false, false, false, ""⟩, ⟨true⟩⟩
        benignEnv emptyState ⟨1002, 9, 5, 7, 100, 0, 2⟩
        [("pathname", GoValue.str "/bin/ls"), ("ctime", GoValue.i64 1000)] []).argMetas =
        [] ++ [⟨"sha256", "const char*"⟩] ∧
      (processEvent
        ⟨⟨⟨false, []⟩, ⟨false, []⟩⟩, ⟨false, false, false, ""⟩, ⟨true⟩⟩
        benignEnv emptyState ⟨1002, 9, 5, 7, 100, 0, 2⟩
        [("pathname", GoValue.str "/bin/ls"), ("ctime", GoValue.i64 1000)] []).ctx.Argnum =
        (⟨1002, 9, 5, 7, 100, 0, 2⟩ : EventContext).Argnum + 1 ∧
      (processEvent
        ⟨⟨⟨false, []⟩, ⟨false, []⟩⟩, ⟨false, false, false, ""⟩, ⟨true⟩⟩
        benignEnv emptyState ⟨1002, 9, 5, 7, 100, 0, 2⟩
        [("pathname", GoValue.str "/bin/ls"), ("ctime", GoValue.i64 1000)] []).err = none :=
  ⟨by decide,
    spec_C9 _ benignEnv emptyState ⟨1002, 9, 5, 7, 100, 0, 2⟩ _ []
      "/bin/ls" 1000 5 [] rfl (by decide) (by decide) (by decide)
      (fun _ => rfl) (fun _ _ => rfl) (by decide) rfl⟩

/-- C5: with hash-on-output enabled (non-failing filesystem, head PID
candidate `pid`), the cached hash for the (namespace, resolved source
path) key is reused exactly when the stored change-time equals the event's
ctime; on a mismatch or a miss the hash is recomputed from the resolved
source path and the cache entry replaced by the new pair. -/
theorem spec_C5 (cfg : Config) (env : Env) (s : TraceeState)
    (ctx : EventContext) (args : Args) (metas : List ArgMeta)
    (fp : String) (ct : Int) (pid : Nat) (rest : List Nat)
    (hid : ctx.EventID = SchedProcessExecEventID)
    (hp : mapGet args "pathname" = some (GoValue.str fp))
    (habs : fp.data.head? = some '/')
    (hct : mapGet args "ctime" = some (GoValue.i64 ct))
    (hmk : ∀ d, env.mkdirErr d = none)
    (hcp : ∀ a b, env.copyErr a b = none)
    (hbucket : GetBucket (pidsAfterInsert s.pidsInMntns ctx) ctx.MntID = pid :: rest)
    (hhash : cfg.Output.ExecHash = true) :
    (∀ info : FileExecInfo,
      mapGet s.fileHashes (execFileID ctx.MntID (execSrcPath pid fp)) = some info →
      info.LastCtime = ct →
      mapGet (processEvent cfg env s ctx args metas).args "sha256" =
        some (GoValue.str info.Hash) ∧
      (processEvent cfg env s ctx args metas).st.fileHashes = s.fileHashes) ∧
    (∀ info : FileExecInfo,
      mapGet s.fileHashes (execFileID ctx.MntID (execSrcPath pid fp)) = some info →
      info.LastCtime ≠ ct →
      mapGet (processEvent cfg env s ctx args metas).args "sha256" =
        some (GoValue.str (env.hashOf (execSrcPath pid fp))) ∧
      (processEvent cfg env s ctx args metas).st.fileHashes =
        mapSet s.fileHashes (execFileID ctx.MntID (execSrcPath pid fp))
          ⟨ct, env.hashOf (execSrcPath pid fp)⟩) ∧
    (mapGet s.fileHashes (execFileID ctx.MntID (execSrcPath pid fp)) = none →
      mapGet (processEvent cfg env s ctx args metas).args "sha256" =
        some (GoValue.str (env.hashOf (execSrcPath pid fp))) ∧
      (processEvent cfg env s ctx args metas).st.fileHashes =
        mapSet s.fileHashes (execFileID ctx.MntID (execSrcPath pid fp))
          ⟨ct, env.hashOf (execSrcPath pid fp)⟩) := by
  rw [processEvent_exec cfg env s ctx args metas fp ct pid rest hid hp habs hct
    hmk hcp hbucket]
  refine ⟨?_, ?_, ?_⟩
  · intro info hlook heq
    rw [execOutcome_hash_args cfg env s ctx args metas fp ct pid hhash,
      execOutcome_hash_fileHashes cfg env s ctx args metas fp ct pid hhash,
      hashStep_hit env s.fileHashes _ _ ct info hlook heq]
    exact ⟨mapGet_mapSet_self args "sha256" _, rfl⟩
  · intro info hlook hne
    rw [execOutcome_hash_args cfg env s ctx args metas fp ct pid hhash,
      execOutcome_hash_fileHashes cfg env s ctx args metas fp ct pid hhash,
      hashStep_stale env s.fileHashes _ _ ct info hlook hne]
    exact ⟨mapGet_mapSet_self args "sha256" _, rfl⟩
  · intro hlook
    rw [execOutcome_hash_args cfg env s ctx args metas fp ct pid hhash,
      execOutcome_hash_fileHashes cfg env s ctx args metas fp ct pid hhash,
      hashStep_miss env s.fileHashes _ _ ct hlook]
    exact ⟨mapGet_mapSet_self args "sha256" _, rfl⟩

theorem spec_C5_witness :
    mapGet
      ((⟨[], [], [], [("7:/proc/5/root/bin/ls", ⟨1000, "cafe"⟩)], [], false⟩ :
        TraceeState)).fileHashes (execFileID 7 (execSrcPath 5 "/bin/ls")) =
      some ⟨1000, "cafe"⟩ ∧
    (mapGet (processEvent
        ⟨⟨⟨false, []⟩, ⟨false, []⟩⟩, ⟨false, false, false, ""⟩, ⟨true⟩⟩
        benignEnv
        ⟨[], [], [], [("7:/proc/5/root/bin/ls", ⟨1000, "cafe"⟩)], [], false⟩
        ⟨1002, 9, 5, 7, 100, 0, 2⟩
        [("pathname", GoValue.str "/bin/ls"), ("ctime", GoValue.i64 1000)]
        []).args "sha256" = some (GoValue.str (FileExecInfo.mk 1000 "cafe").Hash) ∧
      (processEvent
        ⟨⟨⟨false, []⟩, ⟨false, []⟩⟩, ⟨false, false, false, ""⟩, ⟨true⟩⟩
        benignEnv
        ⟨[], [], [], [("7:/proc/5/root/bin/ls", ⟨1000, "cafe"⟩)], [], false⟩
        ⟨1002, 9, 5, 7, 100, 0, 2⟩
        [("pathname", GoValue.str "/bin/ls"), ("ctime", GoValue.i64 1000)]
        []).st.fileHashes =
        (⟨[], [], [], [("7:/proc/5/root/bin/ls", ⟨1000, "cafe"⟩)], [], false⟩ :
          TraceeState).fileHashes) :=
  ⟨by decide,
    (spec_C5
        ⟨⟨⟨false, []⟩, ⟨false, []⟩⟩, ⟨false, false, false, ""⟩, ⟨true⟩⟩
        benignEnv
        ⟨[], [], [], [("7:/proc/5/root/bin/ls", ⟨1000, "cafe"⟩)], [], false⟩
        ⟨1002, 9, 5, 7, 100, 0, 2⟩
        [("pathname", GoValue.str "/bin/ls"), ("ctime", GoValue.i64 1000)] []
        "/bin/ls" 1000 5 [] rfl (by decide) (by decide) (by decide)
        (fun _ => rfl) (fun _ _ => rfl) (by decide) rfl).1
      ⟨1000, "cafe"⟩ (by decide) rfl⟩

/-! ## Bucket-insertion idempotence (for the repeated-event claims) -/

theorem GetBucket_mapSet_self (m : List (Nat × List Nat)) (ns : Nat)
    (b : List Nat) : GetBucket (mapSet m ns b) ns = b := by
  simp [GetBucket, mapGet_mapSet_self]

theorem AddBucketItem_idem (m : List (Nat × List Nat)) (ns pid : Nat) :
    AddBucketItem (AddBucketItem m ns pid) ns pid = AddBucketItem m ns pid := by
  unfold AddBucketItem
  by_cases h1 : pid ∈ GetBucket m ns
  · simp [h1]
  · by_cases h2 : (GetBucket m ns).length < bucketCapacity
    · simp [h1, h2, GetBucket_mapSet_self]
    · simp [h1, h2]

theorem ForceAddBucketItem_idem (m : List (Nat × List Nat)) (ns pid : Nat) :
    ForceAddBucketItem (ForceAddBucketItem m ns pid) ns pid =
      ForceAddBucketItem m ns pid := by
  unfold ForceAddBucketItem
  by_cases h1 : pid ∈ GetBucket m ns
  · simp [h1]
  · simp [h1, GetBucket_mapSet_self]

theorem pidsAfterInsert_idem (m : List (Nat × List Nat)) (ctx : EventContext) :
    pidsAfterInsert (pidsAfterInsert m ctx) ctx = pidsAfterInsert m ctx := by
  unfold pidsAfterInsert
  by_cases h : ctx.Pid = 1 <;>
    simp [h, AddBucketItem_idem, ForceAddBucketItem_idem]

/-- C6: with exec-capture enabled (non-failing filesystem) and a fresh
Captured-File key, the first exec event copies the file exactly once; an
identical second event with unchanged change-time performs no copy, while
a second event with a different change-time performs exactly one further
copy and updates the Captured-File record to the new change-time. -/
theorem spec_C6 (cfg : Config) (env : Env) (s : TraceeState)
    (ctx : EventContext) (args args2 : Args) (metas metas2 : List ArgMeta)
    (fp : String) (c1 c2 : Int) (pid : Nat) (rest : List Nat)
    (hid : ctx.EventID = SchedProcessExecEventID)
    (hp : mapGet args "pathname" = some (GoValue.str fp))
    (hp2 : mapGet args2 "pathname" = some (GoValue.str fp))
    (habs : fp.data.head? = some '/')
    (hct1 : mapGet args "ctime" = some (GoValue.i64 c1))
    (hct2 : mapGet args2 "ctime" = some (GoValue.i64 c2))
    (hmk : ∀ d, env.mkdirErr d = none)
    (hcp : ∀ a b, env.copyErr a b = none)
    (hexec : cfg.Capture.Exec = true)
    (hbucket : GetBucket (pidsAfterInsert s.pidsInMntns ctx) ctx.MntID = pid :: rest)
    (hfresh : mapGet s.capturedFiles
      (execFileID ctx.MntID (execSrcPath pid fp)) = none) :
    copyCount (processEvent cfg env s ctx args metas).effects = 1 ∧
    (c2 = c1 →
      copyCount (processEvent cfg env
        (processEvent cfg env s ctx args metas).st ctx args2 metas2).effects = 0) ∧
    (c2 ≠ c1 →
      copyCount (processEvent cfg env
        (processEvent cfg env s ctx args metas).st ctx args2 metas2).effects = 1 ∧
      mapGet (processEvent cfg env
          (processEvent cfg env s ctx args metas).st ctx args2 metas2).st.capturedFiles
        (execFileID ctx.MntID (execSrcPath pid fp)) = some c2) := by
  have hmiss1 : ctimeHit s.capturedFiles
      (execFileID ctx.MntID (execSrcPath pid fp)) c1 = false := by
    unfold ctimeHit
    rw [hfresh]
  have h1 := processEvent_exec cfg env s ctx args metas fp c1 pid rest hid hp
    habs hct1 hmk hcp hbucket
  have hcap1 : (processEvent cfg env s ctx args metas).st.capturedFiles =
      mapSet s.capturedFiles (execFileID ctx.MntID (execSrcPath pid fp)) c1 := by
    rw [h1, execOutcome_capturedFiles_exec cfg env s ctx args metas fp c1 pid hexec,
      hmiss1]
    simp
  have hbucket2 : GetBucket
      (pidsAfterInsert (processEvent cfg env s ctx args metas).st.pidsInMntns ctx)
      ctx.MntID = pid :: rest := by
    rw [h1, execOutcome_pidsInMntns cfg env s ctx args metas fp c1 pid,
      pidsAfterInsert_idem]
    exact hbucket
  have h2 := processEvent_exec cfg env (processEvent cfg env s ctx args metas).st
    ctx args2 metas2 fp c2 pid rest hid hp2 habs hct2 hmk hcp hbucket2
  refine ⟨?_, ?_, ?_⟩
  · rw [h1, execOutcome_copyCount_exec cfg env s ctx args metas fp c1 pid hexec,
      hmiss1]
    simp
  · intro he
    subst he
    have hhit2 : ctimeHit (processEvent cfg env s ctx args metas).st.capturedFiles
        (execFileID ctx.MntID (execSrcPath pid fp)) c2 = true := by
      unfold ctimeHit
      rw [hcap1, mapGet_mapSet_self]
      simp
    rw [h2, execOutcome_copyCount_exec cfg env _ ctx args2 metas2 fp c2 pid hexec,
      hhit2]
    simp
  · intro hne
    have hhit2 : ctimeHit (processEvent cfg env s ctx args metas).st.capturedFiles
        (execFileID ctx.MntID (execSrcPath pid fp)) c2 = false := by
      unfold ctimeHit
      rw [hcap1, mapGet_mapSet_self]
      simp [Ne.symm hne]
    constructor
    · rw [h2, execOutcome_copyCount_exec cfg env _ ctx args2 metas2 fp c2 pid hexec,
        hhit2]
      simp
    · rw [h2, execOutcome_capturedFiles_exec cfg env _ ctx args2 metas2 fp c2 pid hexec,
        hhit2]
      simp [mapGet_mapSet_self]

theorem spec_C6_witness :
    mapGet emptyState.capturedFiles (execFileID 7 (execSrcPath 5 "/bin/ls")) = none ∧
    copyCount (processEvent
      ⟨⟨⟨false, []⟩, ⟨false, []⟩⟩, ⟨false, true, false, "/tmp/out"⟩, ⟨false⟩⟩
      benignEnv emptyState ⟨1002, 9, 5, 7, 100, 0, 2⟩
      [("pathname", GoValue.str "/bin/ls"), ("ctime", GoValue.i64 1000)] []).effects = 1 ∧
    copyCount (processEvent
      ⟨⟨⟨false, []⟩, ⟨false, []⟩⟩, ⟨false, true, false, "/tmp/out"⟩, ⟨false⟩⟩
      benignEnv
      (processEvent
        ⟨⟨⟨false, []⟩, ⟨false, []⟩⟩, ⟨false, true, false, "/tmp/out"⟩, ⟨false⟩⟩
        benignEnv emptyState ⟨1002, 9, 5, 7, 100, 0, 2⟩
        [("pathname", GoValue.str "/bin/ls"), ("ctime", GoValue.i64 1000)] []).st
      ⟨1002, 9, 5, 7, 100, 0, 2⟩
      [("pathname", GoValue.str "/bin/ls"), ("ctime", GoValue.i64 1000)] []).effects = 0 ∧
    (copyCount (processEvent
      ⟨⟨⟨false, []⟩, ⟨false, []⟩⟩, ⟨false, true, false, "/tmp/out"⟩, ⟨false⟩⟩
      benignEnv
      (processEvent
        ⟨⟨⟨false, []⟩, ⟨false, []⟩⟩, ⟨false, true, false, "/tmp/out"⟩, ⟨false⟩⟩
        benignEnv emptyState ⟨1002, 9, 5, 7, 100, 0, 2⟩
        [("pathname", GoValue.str "/bin/ls"), ("ctime", GoValue.i64 1000)] []).st
      ⟨1002, 9, 5, 7, 100, 0, 2⟩
      [("pathname", GoValue.str "/bin/ls"), ("ctime", GoValue.i64 2000)] []).effects = 1 ∧
      mapGet (processEvent
        ⟨⟨⟨false, []⟩, ⟨false, []⟩⟩, ⟨false, true, false, "/tmp/out"⟩, ⟨false⟩⟩
        benignEnv
        (processEvent
          ⟨⟨⟨false, []⟩, ⟨false, []⟩⟩, ⟨false, true, false, "/tmp/out"⟩, ⟨false⟩⟩
          benignEnv emptyState ⟨1002, 9, 5, 7, 100, 0, 2⟩
          [("pathname", GoValue.str "/bin/ls"), ("ctime", GoValue.i64 1000)] []).st
        ⟨1002, 9, 5, 7, 100, 0, 2⟩
        [("pathname", GoValue.str "/bin/ls"), ("ctime", GoValue.i64 2000)] []).st.capturedFiles
        (execFileID 7 (execSrcPath 5 "/bin/ls")) = some 2000) :=
  ⟨by decide,
    (spec_C6
        ⟨⟨⟨false, []⟩, ⟨false, []⟩⟩, ⟨false, true, false, "/tmp/out"⟩, ⟨false⟩⟩
        benignEnv emptyState ⟨1002, 9, 5, 7, 100, 0, 2⟩
        [("pathname", GoValue.str "/bin/ls"), ("ctime", GoValue.i64 1000)]
        [("pathname", GoValue.str "/bin/ls"), ("ctime", GoValue.i64 1000)]
        [] [] "/bin/ls" 1000 1000 5 [] rfl (by decide) (by decide) (by decide)
        (by decide) (by decide) (fun _ => rfl) (fun _ _ => rfl) rfl (by decide)
        (by decide)).1,
    (spec_C6
        ⟨⟨⟨false, []⟩, ⟨false, []⟩⟩, ⟨false, true, false, "/tmp/out"⟩, ⟨false⟩⟩
        benignEnv emptyState ⟨1002, 9, 5, 7, 100, 0, 2⟩
        [("pathname", GoValue.str "/bin/ls"), ("ctime", GoValue.i64 1000)]
        [("pathname", GoValue.str "/bin/ls"), ("ctime", GoValue.i64 1000)]
        [] [] "/bin/ls" 1000 1000 5 [] rfl (by decide) (by decide) (by decide)
        (by decide) (by decide) (fun _ => rfl) (fun _ _ => rfl) rfl (by decide)
        (by decide)).2.1 rfl,
    (spec_C6
        ⟨⟨⟨false, []⟩, ⟨false, []⟩⟩, ⟨false, true, false, "/tmp/out"⟩, ⟨false⟩⟩
        benignEnv emptyState ⟨1002, 9, 5, 7, 100, 0, 2⟩
        [("pathname", GoValue.str "/bin/ls"), ("ctime", GoValue.i64 1000)]
        [("pathname", GoValue.str "/bin/ls"), ("ctime", GoValue.i64 2000)]
        [] [] "/bin/ls" 1000 2000 5 [] rfl (by decide) (by decide) (by decide)
        (by decide) (by decide) (fun _ => rfl) (fun _ _ => rfl) rfl (by decide)
        (by decide)).2.2 (by decide)⟩

/-! ## C1: the candidate-PID loop (code bug)

The spec (and the loop's own comments, "will break on success" / "try to
access the root fs via another process in the same mount namespace") call
for iterating the bucket's candidates until one resolves.  The Go loop
body ends in an unconditional `break`, and the copy-failure branch does
`return err`, so only the FIRST candidate is ever attempted and its error
- not the last candidate's - is returned.  The theorem exhibits this at a
concrete input. -/


/-- C1 fails on the code: with candidates `[4, 5]` where resolution via
PID 4 fails and via PID 5 would succeed, the dispatcher attempts only the
first candidate's path and returns its error, never reaching PID 5 -
contradicting "iterates over every PID ... until one succeeds" and
"returns the last candidate's resolution error". -/
theorem spec_C1_first_candidate_only :
    GetBucket (pidsAfterInsert raceState.pidsInMntns raceCtx) 7 = [4, 5] ∧
    raceEnv.copyErr (execSrcPath 5 "/bin/ls")
      (filepathJoin (filepathJoin "/tmp/out" "7") "exec.100.ls") = none ∧
    (processEvent raceCfg raceEnv raceState raceCtx raceArgs []).err =
      some "no such file or directory" ∧
    (processEvent raceCfg raceEnv raceState raceCtx raceArgs []).effects =
      [.mkdir "/tmp/out/7",
        .copyFile (execSrcPath 4 "/bin/ls") "/tmp/out/7/exec.100.ls"] := by
  refine ⟨by decide, by decide, by decide, by decide⟩

/-! ## C2: the tail-call pruning guard -/


theorem captureStep_socketPruned (cfg : Config) (env : Env) (s : TraceeState)
    (ctx : EventContext) (fp src key : String) (ct : Int) :
    (exceptStState (captureStep cfg env s ctx fp src key ct)).socketPruned =
      s.socketPruned := by
  unfold captureStep
  cases hExec : cfg.Capture.Exec
  · simp [exceptStState]
  · rcases hmk2 : env.mkdirErr (filepathJoin cfg.Capture.OutputPath
        (toString ctx.MntID)) with _ | e <;>
    rcases hcp2 : env.copyErr src
        (filepathJoin (filepathJoin cfg.Capture.OutputPath (toString ctx.MntID))
          ("exec." ++ toString ctx.Ts ++ "." ++ filepathBase fp)) with _ | e2 <;>
    cases hProf : cfg.Capture.Profile <;>
      simp only [hExec, hmk2, hcp2, hProf] <;>
      (try simp [exceptStState]) <;>
      (try (rcases hcap : mapGet s.capturedFiles key with _ | lc <;>
        (simp [hcap]
         try (by_cases hlc : lc = ct <;> simp [hlc]))))

theorem execPidLoop_socketPruned (cfg : Config) (env : Env) (s : TraceeState)
    (ctx : EventContext) (args : Args) (metas : List ArgMeta) (fp : String)
    (pids : List Nat) :
    (execPidLoop cfg env s ctx args metas fp pids).st.socketPruned =
      s.socketPruned := by
  cases pids with
  | nil => rfl
  | cons pid rest =>
      unfold execPidLoop
      rcases hct : mapGet args "ctime" with _ | gv
      · simp [hct]
      · cases gv with
        | i64 ct =>
            have hpres := captureStep_socketPruned cfg env s ctx fp
              (execSrcPath pid fp) (execFileID ctx.MntID (execSrcPath pid fp)) ct
            rcases hcs : captureStep cfg env s ctx fp (execSrcPath pid fp)
                (execFileID ctx.MntID (execSrcPath pid fp)) ct with err3 | ok2
            · rw [hcs] at hpres
              rcases err3 with ⟨e, st, effs⟩
              simp only [exceptStState] at hpres
              simp [hct, hcs, hpres]
            · rw [hcs] at hpres
              rcases ok2 with ⟨st, effs⟩
              simp only [exceptStState] at hpres
              cases hh : cfg.Output.ExecHash <;> simp [hct, hcs, hh, hpres]
        | str v => simp [hct]
        | u32 n => simp [hct]
        | u64 n => simp [hct]
        | other r => simp [hct]

theorem processExec_socketPruned (cfg : Config) (env : Env) (s : TraceeState)
    (ctx : EventContext) (args : Args) (metas : List ArgMeta) :
    (processExec cfg env s ctx args metas).st.socketPruned =
      s.socketPruned := by
  unfold processExec
  cases hc : (cfg.Capture.Exec || cfg.Output.ExecHash)
  · simp [hc]
  · simp only [hc]
    rcases hp : mapGet args "pathname" with _ | gv
    · simp [hp]
    · cases gv with
      | str fp =>
          by_cases hfe : fp = ""
          · simp [hp, hfe]
          · by_cases hh : fp.data.head? = some '/'
            · simp [hp, hfe, hh, execPidLoop_socketPruned]
            · simp [hp, hfe, hh]
      | u32 n => simp [hp]
      | u64 n => simp [hp]
      | i64 n => simp [hp]
      | other r => simp [hp]

theorem processWrite_socketPruned (cfg : Config) (s : TraceeState)
    (ctx : EventContext) (args : Args) (metas : List ArgMeta) :
    (processWrite cfg s ctx args metas).st.socketPruned = s.socketPruned := by
  unfold processWrite
  cases hw : cfg.Capture.FileWrite
  · simp
  · rcases hp : mapGet args "pathname" with _ | gv
    · simp [hp]
    · cases gv with
      | str p =>
          by_cases hpe : p = ""
          · simp [hp, hpe]
          · by_cases hh : p.data.head? ≠ some '/'
            · simp [hp, hpe, hh]
            · rcases hd : mapGet args "dev" with _ | gd
              · simp [hp, hpe, hh, hd]
              · cases gd with
                | u32 d =>
                    rcases hi : mapGet args "inode" with _ | gi
                    · simp [hp, hpe, hh, hd, hi]
                    · cases gi with
                      | u64 i =>
                          rcases hwf : mapGet s.writtenFiles
                              (writeKey ctx.MntID d i) with _ | idx
                          · simp [hp, hpe, hh, hd, hi, hwf]
                          · by_cases hidx : idx = p <;>
                              simp [hp, hpe, hh, hd, hi, hwf, hidx]
                      | str v => simp [hp, hpe, hh, hd, hi]
                      | u32 n => simp [hp, hpe, hh, hd, hi]
                      | i64 n => simp [hp, hpe, hh, hd, hi]
                      | other r => simp [hp, hpe, hh, hd, hi]
                | str v => simp [hp, hpe, hh, hd]
                | u64 n => simp [hp, hpe, hh, hd]
                | i64 n => simp [hp, hpe, hh, hd]
                | other r => simp [hp, hpe, hh, hd]
      | u32 n => simp [hp]
      | u64 n => simp [hp]
      | i64 n => simp [hp]
      | other r => simp [hp]

/-- Once the `sync.Once` guard has fired, no later event - of any type -
resets it. -/
theorem processEvent_socketPruned_mono (cfg : Config) (env : Env)
    (s : TraceeState) (ctx : EventContext) (args : Args) (metas : List ArgMeta)
    (h : s.socketPruned = true) :
    (processEvent cfg env s ctx args metas).st.socketPruned = true := by
  unfold processEvent
  by_cases h1 : ctx.EventID = VfsWriteEventID ∨ ctx.EventID = VfsWritevEventID
  · simp [h1, processWrite_socketPruned, h]
  · by_cases h2 : ctx.EventID = SchedProcessExecEventID
    · simp [h1, h2, processExec_socketPruned, h, SchedProcessExecEventID,
        VfsWriteEventID, VfsWritevEventID]
    · by_cases h3 : ctx.EventID = SocketEventID
      · simp [h1, h2, h3, h, SchedProcessExecEventID, VfsWriteEventID,
          VfsWritevEventID, SocketEventID]
      · simp [h1, h2, h3, h]

theorem processAll_pruned (cfg : Config) (env : Env)
    (evs : List (EventContext × Args × List ArgMeta)) :
    ∀ s : TraceeState, s.socketPruned = true →
    (∀ e ∈ evs, e.1.EventID = SocketEventID) →
    (processAll cfg env s evs).1 = s ∧ (processAll cfg env s evs).2 = [] := by
  induction evs with
  | nil => exact fun s _ _ => ⟨rfl, rfl⟩
  | cons e rest ih =>
      intro s h hsock
      rcases e with ⟨ctx, args, metas⟩
      have hid : ctx.EventID = SocketEventID := hsock (ctx, args, metas) (by simp)
      have hstep : processEvent cfg env s ctx args metas =
          ⟨none, s, ctx, args, metas, []⟩ := by
        unfold processEvent
        simp [hid, SocketEventID, VfsWriteEventID, VfsWritevEventID,
          SchedProcessExecEventID, h]
      have hrest := ih s h (fun e he => hsock e (by simp [he]))
      unfold processAll
      rw [hstep]
      simp [hrest.1, hrest.2]

/-- C2: delivering any non-empty sequence of socket-creation events to the
dispatcher from an unpruned state executes the tail-call pruning action -
the dispatch-table lookup and deletion - exactly once (the whole trace is
one lookup/delete run), leaves the guard set, and the pruned state is
never left by any later event. -/
theorem spec_C2 (cfg : Config) (env : Env) (s : TraceeState)
    (evs : List (EventContext × Args × List ArgMeta))
    (hne : evs ≠ [])
    (hsock : ∀ e ∈ evs, e.1.EventID = SocketEventID)
    (hinit : s.socketPruned = false)
    (hgm : env.bpfGetMapErr "sys_exit_tails" = none)
    (hgv : env.bpfGetValueErr "sys_exit_tails" SocketEventID = none)
    (hdk : env.bpfDeleteKeyErr "sys_exit_tails" SocketEventID = none) :
    (processAll cfg env s evs).2 =
      [.bpfGetMap "sys_exit_tails", .bpfGetValue "sys_exit_tails" SocketEventID,
        .bpfDeleteKey "sys_exit_tails" SocketEventID] ∧
    (processAll cfg env s evs).1.socketPruned = true ∧
    (∀ (s' : TraceeState) (ctx' : EventContext) (args' : Args)
        (metas' : List ArgMeta), s'.socketPruned = true →
      (processEvent cfg env s' ctx' args' metas').st.socketPruned = true) := by
  rcases evs with _ | ⟨⟨ctx, args, metas⟩, rest⟩
  · exact absurd rfl hne
  · have hid : ctx.EventID = SocketEventID := hsock (ctx, args, metas) (by simp)
    have hstep : processEvent cfg env s ctx args metas =
        ⟨none, {s with socketPruned := true}, ctx, args, metas,
          removeSocketTail env⟩ := by
      unfold processEvent
      simp [hid, SocketEventID, VfsWriteEventID, VfsWritevEventID,
        SchedProcessExecEventID, hinit]
    have hrt : removeSocketTail env =
        [.bpfGetMap "sys_exit_tails",
          .bpfGetValue "sys_exit_tails" SocketEventID,
          .bpfDeleteKey "sys_exit_tails" SocketEventID] := by
      unfold removeSocketTail
      rw [hgm, hgv, hdk]
    have hrest := processAll_pruned cfg env rest {s with socketPruned := true}
      rfl (fun e he => hsock e (by simp [he]))
    refine ⟨?_, ?_, fun s' ctx' args' metas' h =>
      processEvent_socketPruned_mono cfg env s' ctx' args' metas' h⟩
    · unfold processAll
      rw [hstep]
      simp [hrt, hrest.2]
    · unfold processAll
      rw [hstep]
      simp [hrest.1]

theorem spec_C2_witness :
    (([(⟨41, 2, 2, 3, 0, 0, 0⟩, ([] : Args), ([] : List ArgMeta)),
        (⟨41, 2, 2, 3, 0, 0, 0⟩, ([] : Args), ([] : List ArgMeta))] :
      List (EventContext × Args × List ArgMeta)) ≠ [] ∧
      emptyState.socketPruned = false) ∧
    (processAll ⟨⟨⟨false, []⟩, ⟨false, []⟩⟩, ⟨false, false, false, ""⟩, ⟨false⟩⟩
        benignEnv emptyState
        [(⟨41, 2, 2, 3, 0, 0, 0⟩, [], []), (⟨41, 2, 2, 3, 0, 0, 0⟩, [], [])]).2 =
      [.bpfGetMap "sys_exit_tails", .bpfGetValue "sys_exit_tails" SocketEventID,
        .bpfDeleteKey "sys_exit_tails" SocketEventID] ∧
    (processAll ⟨⟨⟨false, []⟩, ⟨false, []⟩⟩, ⟨false, false, false, ""⟩, ⟨false⟩⟩
        benignEnv emptyState
        [(⟨41, 2, 2, 3, 0, 0, 0⟩, [], []), (⟨41, 2, 2, 3, 0, 0, 0⟩, [], [])]).1.socketPruned =
      true :=
  ⟨⟨by decide, rfl⟩,
    (spec_C2 ⟨⟨⟨false, []⟩, ⟨false, []⟩⟩, ⟨false, false, false, ""⟩, ⟨false⟩⟩
        benignEnv emptyState
        [(⟨41, 2, 2, 3, 0, 0, 0⟩, [], []), (⟨41, 2, 2, 3, 0, 0, 0⟩, [], [])]
        (by decide) (by decide) rfl rfl rfl rfl).1,
    (spec_C2 ⟨⟨⟨false, []⟩, ⟨false, []⟩⟩, ⟨false, false, false, ""⟩, ⟨false⟩⟩
        benignEnv emptyState
        [(⟨41, 2, 2, 3, 0, 0, 0⟩, [], []), (⟨41, 2, 2, 3, 0, 0, 0⟩, [], [])]
        (by decide) (by decide) rfl rfl rfl rfl).2.1⟩

end Tracee
